import Mathlib

/-!
Shallow embedding of `src/id/helpers/canonical_helpers.py` — the canonical
biomarker identifier assignment engine.

Python strings are embedded as `List Char` (a Python `str` is a sequence of
code points; comparison and slicing in the source act on that sequence).
The MongoDB collection behind the ledger is embedded as a list of entries in
insertion order; `find_one` on a filter is the first matching entry
(MongoDB natural order), `find_one(sort=[(key, DESCENDING)])` is the entry
with the maximum key, and `insert_one` appends.  The two external helpers the
module imports — `hashlib.sha256(...).hexdigest()` and
`misc_functions.clean_value` — are deterministic functions of their string
argument and are passed as explicit function parameters `sha` and `clean`.
`sys.exit(code)` (process termination) is embedded as the distinguished
outcome `PyResult.exit code`, so that termination-vs-return is observable.
-/

/-- Embeds a Lean string literal as the `List Char` it denotes. -/
def chars (s : String) : List Char := s.data

/-- One element of a document's `biomarker_component` array.  Only the two
fields read by `_generate_hash` are modelled. -/
structure Component where
  biomarker : List Char
  assessed_biomarker_entity_id : List Char
deriving DecidableEq, Repr

/-- The input document.  Only the `biomarker_component` field is read by the
canonical-id code. -/
structure Document where
  biomarker_component : List Component
deriving DecidableEq, Repr

/-- One document of the canonical ID map collection, as written by
`_new_ordinal`. -/
structure Entry where
  hash_value : List Char
  biomarker_canonical_id : List Char
  core_values_str : List Char
deriving DecidableEq, Repr

/-- The canonical ID map collection, in insertion (natural) order. -/
abbrev DB := List Entry

/-- Outcome of running a piece of the Python code: either a normal return
value, or process termination through `sys.exit code`. -/
inductive PyResult (α : Type) where
  | ok : α → PyResult α
  | exit : Nat → PyResult α
deriving DecidableEq, Repr

/-- Python `str.split(sep)` for a one-character separator `sep`:
`''.split(' ') = ['']`, and each occurrence of `sep` opens a new field. -/
def pySplit (sep : Char) : List Char → List (List Char)
  | [] => [[]]
  | c :: rest =>
    let r := pySplit sep rest
    if c = sep then [] :: r else (c :: r.headI) :: r.tail

/-- `_extract_change(biomarker)`: `return biomarker.split(' ')[0]`. -/
def _extract_change (biomarker : List Char) : List Char :=
  (pySplit ' ' biomarker).headI

/-- `_generate_hash(document)`: collect, for each component in order, the
extracted change of its `biomarker` and its `assessed_biomarker_entity_id`;
clean every value; sort the list; join with `'_'`; return the digest of the
joined string together with the joined string. -/
def _generate_hash (sha clean : List Char → List Char) (document : Document) :
    List Char × List Char :=
  let core_values :=
    document.biomarker_component.flatMap
      (fun component =>
        [_extract_change component.biomarker,
         component.assessed_biomarker_entity_id])
  let cleaned := core_values.map clean
  let sorted := cleaned.insertionSort (· ≤ ·)
  let core_values_str := List.intercalate (chars "_") sorted
  (sha core_values_str, core_values_str)

/-- `_check_collision(hash_value, dbh, id_collection)`: whether
`find_one({'hash_value': hash_value})` is not `None`. -/
def _check_collision (hash_value : List Char) (db : DB) : Bool :=
  (db.find? (fun e => decide (e.hash_value = hash_value))).isSome

/-- `_get_ordinal_id(hash_value, dbh, id_collection)`: look the entry up by
hash value and return its `biomarker_canonical_id`; on a missing entry the
source logs and calls `sys.exit(1)`. -/
def _get_ordinal_id (hash_value : List Char) (db : DB) : PyResult (List Char) :=
  match db.find? (fun e => decide (e.hash_value = hash_value)) with
  | some target_record => PyResult.ok target_record.biomarker_canonical_id
  | none => PyResult.exit 1

/-- `find_one(sort=[('biomarker_canonical_id', pymongo.DESCENDING)])`: the
entry whose `biomarker_canonical_id` is maximal (earliest such entry on
ties), or `none` on an empty collection. -/
def findMaxOrdinal (db : DB) : Option Entry :=
  db.foldl
    (fun acc e =>
      match acc with
      | none => some e
      | some m =>
        if m.biomarker_canonical_id < e.biomarker_canonical_id then some e
        else some m)
    none

/-- Python `int(s)` on a string of decimal digits. -/
def parseIntDigits (l : List Char) : Nat :=
  l.foldl (fun acc c => acc * 10 + (c.toNat - 48)) 0

/-- Python `str.zfill(width)` on a string with no sign character: left-pad
with `'0'` to `width`. -/
def zfill (width : Nat) (l : List Char) : List Char :=
  List.replicate (width - l.length) '0' ++ l

/-- `_increment_ordinal_id(curr_max_id)`: split into the 2-letter prefix and
the numeric suffix; below 9999 increment the suffix (`str(...).zfill(4)`);
at 9999 with letters `ZZ` raise `ValueError`; otherwise advance the letter
pair (`chr(ord(c) + 1)`, with the second letter cycling `Z` → `A` into the
first) and reset the suffix to `0000`. -/
def _increment_ordinal_id (curr_max_id : List Char) :
    Except (List Char) (List Char) :=
  let letters := curr_max_id.take 2
  let numbers := parseIntDigits (curr_max_id.drop 2)
  if numbers < 9999 then
    Except.ok (letters ++ zfill 4 (Nat.toDigits 10 (numbers + 1)))
  else if letters = chars "ZZ" then
    Except.error (chars "Maximum ordinal ID reached. ID space full.")
  else
    let first_letter := letters.getD 0 'A'
    let second_letter := letters.getD 1 'A'
    if second_letter = 'Z' then
      Except.ok ([Char.ofNat (first_letter.toNat + 1), 'A'] ++ chars "0000")
    else
      Except.ok ([first_letter, Char.ofNat (second_letter.toNat + 1)] ++ chars "0000")

/-- `_new_ordinal(hash_value, core_values_str, dbh, id_collection)`: read the
current maximum id (defaulting to `'AA0000'` on an empty collection),
increment it — a `ValueError` there is caught, logged, and turned into
`sys.exit(1)` — then insert the new entry and return the new id. -/
def _new_ordinal (hash_value core_values_str : List Char) (db : DB) :
    PyResult (List Char × DB) :=
  let max_ordinal_id :=
    match findMaxOrdinal db with
    | some max_entry => max_entry.biomarker_canonical_id
    | none => chars "AA0000"
  match _increment_ordinal_id max_ordinal_id with
  | Except.error _ => PyResult.exit 1
  | Except.ok new_ordinal_id =>
    PyResult.ok (new_ordinal_id,
      db ++ [⟨hash_value, new_ordinal_id, core_values_str⟩])

/-- `_assign_ordinal(hash_value, core_values_str, collision, dbh,
id_collection)`: on a collision return the existing id, otherwise mint a new
one. -/
def _assign_ordinal (hash_value core_values_str : List Char) (collision : Bool)
    (db : DB) : PyResult (List Char × DB) :=
  if collision then
    match _get_ordinal_id hash_value db with
    | PyResult.ok ordinal_id => PyResult.ok (ordinal_id, db)
    | PyResult.exit c => PyResult.exit c
  else
    _new_ordinal hash_value core_values_str db

/-- `get_ordinal_id(document, dbh, id_collection)`: the public entry point.
Returns `(canonical_id, hash_value, core_values_str, collision_status)`
together with the resulting collection state. -/
def get_ordinal_id (sha clean : List Char → List Char) (document : Document)
    (db : DB) : PyResult ((List Char × List Char × List Char × Bool) × DB) :=
  match _generate_hash sha clean document with
  | (hash_value, core_values_str) =>
    let collision_status := _check_collision hash_value db
    match _assign_ordinal hash_value core_values_str collision_status db with
    | PyResult.ok (canonical_id, db2) =>
      PyResult.ok ((canonical_id, hash_value, core_values_str, collision_status), db2)
    | PyResult.exit c => PyResult.exit c

/-- The shape `[A-Z]{2}[0-9]{4}` of an ordinal canonical id. -/
def isOrdinalId (l : List Char) : Bool :=
  match l with
  | [a, b, w, x, y, z] =>
    a.isUpper && b.isUpper && w.isDigit && x.isDigit && y.isDigit && z.isDigit
  | _ => false

/-- Modelled from the spec: "the first whitespace-delimited token of the
descriptor", with any whitespace character acting as a delimiter.  (Used
only to compare claim C8's wording against `_extract_change`; the source's
own extraction is `_extract_change` above.) -/
def firstWhitespaceToken (l : List Char) : List Char :=
  (l.dropWhile (fun c => c.isWhitespace)).takeWhile (fun c => !c.isWhitespace)

/-- A concrete digest stand-in used for concrete evaluations: any
deterministic function of the string works for the properties at issue. -/
def sha0 : List Char → List Char := fun core_values_str => '#' :: core_values_str

/-- A concrete cleaning stand-in (the identity) for concrete evaluations. -/
def clean0 : List Char → List Char := fun v => v

/-- A concrete single-component document. -/
def doc0 : Document :=
  ⟨[⟨chars "presence of X", chars "NCIT:C16000"⟩]⟩

/-- A ledger whose maximum issued id is the last id of the space. -/
def dbFull : DB := [⟨chars "h0", chars "ZZ9999", chars "cv0"⟩]

/-- A descriptor containing a tab: whitespace that is not the space
character. -/
def tabDescriptor : List Char := ['a', '\t', 'b']

/-- The ledger entry holding the hash of `doc0` under `sha0`/`clean0`. -/
def entry0 : Entry :=
  ⟨sha0 (chars "NCIT:C16000_presence"), chars "AA0001", chars "NCIT:C16000_presence"⟩

/-- A two-component document and its component-swapped variant. -/
def docP1 : Document :=
  ⟨[⟨chars "presence of X", chars "NCIT:C16000"⟩,
    ⟨chars "level high", chars "UPKB:P12345"⟩]⟩

/-- `docP1` with its two components in the opposite order. -/
def docP2 : Document :=
  ⟨[⟨chars "level high", chars "UPKB:P12345"⟩,
    ⟨chars "presence of X", chars "NCIT:C16000"⟩]⟩

/-- Sorting two lists that are permutations of each other (with the
lexicographic order used by `_generate_hash`) yields the same list. -/
theorem pySort_eq_of_perm {l1 l2 : List (List Char)} (h : l1.Perm l2) :
    l1.insertionSort (· ≤ ·) = l2.insertionSort (· ≤ ·) :=
  List.eq_of_perm_of_sorted
    ((List.perm_insertionSort _ l1).trans (h.trans (List.perm_insertionSort _ l2).symm))
    (List.sorted_insertionSort _ l1) (List.sorted_insertionSort _ l2)

example : _extract_change (chars "presence of X") = chars "presence" := by decide

example :
    _generate_hash sha0 clean0 doc0 =
      (sha0 (chars "NCIT:C16000_presence"), chars "NCIT:C16000_presence") := by
  decide

example : _increment_ordinal_id (chars "AA0000") = Except.ok (chars "AA0001") := by
  rfl

/-- C2: the ordinal increment boundary table: `AA0000` → `AA0001`,
`AA9999` → `AB0000`, `AZ9999` → `BA0000`, and `ZZ9999` raises the
space-exhaustion `ValueError` instead of returning a successor. -/
theorem increment_boundary_table :
    _increment_ordinal_id (chars "AA0000") = Except.ok (chars "AA0001") ∧
    _increment_ordinal_id (chars "AA9999") = Except.ok (chars "AB0000") ∧
    _increment_ordinal_id (chars "AZ9999") = Except.ok (chars "BA0000") ∧
    _increment_ordinal_id (chars "ZZ9999") =
      Except.error (chars "Maximum ordinal ID reached. ID space full.") :=
  ⟨rfl, rfl, rfl, rfl⟩

/-- C9: a document with an empty `biomarker_component` list yields the empty
core values string, which is passed to the digest function like any other
content signature; no default is substituted. -/
theorem empty_document_empty_core_values (sha clean : List Char → List Char) :
    _generate_hash sha clean ⟨[]⟩ = (sha [], []) := rfl

/-- C3: permuting the `biomarker_component` list of a document leaves the
output of `_generate_hash` — the hash value and the core values string —
unchanged, because the cleaned core values are sorted before joining. -/
theorem generate_hash_order_independent (sha clean : List Char → List Char)
    (d1 d2 : Document) (h : d1.biomarker_component.Perm d2.biomarker_component) :
    _generate_hash sha clean d1 = _generate_hash sha clean d2 := by
  simp only [_generate_hash]
  rw [pySort_eq_of_perm ((h.flatMap_right _).map clean)]

/-- Witness for C3 at the concrete pair `docP1`, `docP2`. -/
theorem generate_hash_order_independent_witness :
    docP1.biomarker_component.Perm docP2.biomarker_component ∧
    _generate_hash sha0 clean0 docP1 = _generate_hash sha0 clean0 docP2 :=
  ⟨by decide, generate_hash_order_independent sha0 clean0 docP1 docP2 (by decide)⟩

/-- C5 (evaluation of the divergence): the code terminates the host process —
`sys.exit(1)`, embedded as `PyResult.exit 1` — both when the identifier space
is exhausted (ledger maximum `ZZ9999`, fresh hash) and when the lookup of an
existing entry fails, instead of returning a distinct error value. -/
theorem process_terminates_on_exhaustion_and_lookup_failure :
    _new_ordinal (chars "h1") (chars "cv1") dbFull = PyResult.exit 1 ∧
    _get_ordinal_id (chars "h1") [] = PyResult.exit 1 ∧
    get_ordinal_id sha0 clean0 doc0 dbFull = PyResult.exit 1 := by
  refine ⟨rfl, rfl, ?_⟩
  decide

/-- C8 counterexample: on a descriptor containing a tab, the extracted core
value is not the first whitespace-delimited token — the code splits on the
space character only, so the tab survives. -/
theorem extract_change_keeps_tab :
    _extract_change tabDescriptor = ['a', '\t', 'b'] ∧
    firstWhitespaceToken tabDescriptor = ['a'] ∧
    _extract_change tabDescriptor ≠ firstWhitespaceToken tabDescriptor := by
  decide

/-- Helper for C8: the first field of `pySplit sep` is the longest prefix free
of `sep`. -/
theorem pySplit_headI (sep : Char) (l : List Char) :
    (pySplit sep l).headI = l.takeWhile (fun c => c != sep) := by
  induction l with
  | nil => rfl
  | cons c rest ih =>
    by_cases hc : c = sep
    · subst hc
      simp [pySplit, List.takeWhile_cons]
    · simp [pySplit, hc, List.takeWhile_cons, ih]

/-- C8 amended: the core value extracted from a descriptor is its longest
prefix containing no space character `' '` (U+0020); only the space character
delimits, other whitespace is kept. -/
theorem extract_change_take_until_space (biomarker : List Char) :
    _extract_change biomarker = biomarker.takeWhile (fun c => c != ' ') :=
  pySplit_headI ' ' biomarker

/-- C4 counterexample: on an empty ledger the first issued canonical id is
`AA0001` — the code seeds the missing maximum with `'AA0000'` and increments
before inserting — so it is not `AA0000`. -/
theorem first_issued_id_is_not_AA0000 :
    get_ordinal_id sha0 clean0 doc0 [] =
      PyResult.ok ((chars "AA0001", sha0 (chars "NCIT:C16000_presence"),
          chars "NCIT:C16000_presence", false),
        [entry0]) ∧
    chars "AA0001" ≠ chars "AA0000" := by
  decide

/-- C4 amended: when the ledger contains no entries, a fresh allocation
issues `AA0001` (the successor of the seed value `AA0000`, which itself is
never issued). -/
theorem fresh_allocation_on_empty_ledger (sha clean : List Char → List Char)
    (document : Document) (h cv : List Char)
    (hgen : _generate_hash sha clean document = (h, cv)) :
    get_ordinal_id sha clean document [] =
      PyResult.ok ((chars "AA0001", h, cv, false), [⟨h, chars "AA0001", cv⟩]) := by
  have hinc : _increment_ordinal_id (chars "AA0000") = Except.ok (chars "AA0001") := rfl
  simp [get_ordinal_id, hgen, _check_collision, _assign_ordinal, _new_ordinal,
    findMaxOrdinal, hinc]

/-- Witness for the amended C4 at `sha0`, `clean0`, `doc0`. -/
theorem fresh_allocation_on_empty_ledger_witness :
    get_ordinal_id sha0 clean0 doc0 [] =
      PyResult.ok ((chars "AA0001", sha0 (chars "NCIT:C16000_presence"),
          chars "NCIT:C16000_presence", false),
        [⟨sha0 (chars "NCIT:C16000_presence"), chars "AA0001",
          chars "NCIT:C16000_presence"⟩]) :=
  fresh_allocation_on_empty_ledger sha0 clean0 doc0
    (sha0 (chars "NCIT:C16000_presence")) (chars "NCIT:C16000_presence") (by decide)

/-- C1: when an entry for the document's hash already exists in the ledger,
`get_ordinal_id` returns that entry's canonical id with `already_existed =
true`, inserts nothing, and leaves the ledger unchanged. -/
theorem lookup_path_returns_existing_entry (sha clean : List Char → List Char)
    (document : Document) (db : DB) (e : Entry) (h cv : List Char)
    (hgen : _generate_hash sha clean document = (h, cv))
    (hfind : db.find? (fun x => decide (x.hash_value = h)) = some e) :
    get_ordinal_id sha clean document db =
      PyResult.ok ((e.biomarker_canonical_id, h, cv, true), db) := by
  simp [get_ordinal_id, hgen, _check_collision, hfind, _assign_ordinal, _get_ordinal_id]

/-- Witness for C1: looking `doc0` up in a ledger already holding its hash. -/
theorem lookup_path_returns_existing_entry_witness :
    get_ordinal_id sha0 clean0 doc0 [entry0] =
      PyResult.ok ((chars "AA0001", sha0 (chars "NCIT:C16000_presence"),
        chars "NCIT:C16000_presence", true), [entry0]) :=
  lookup_path_returns_existing_entry sha0 clean0 doc0 [entry0] entry0
    (sha0 (chars "NCIT:C16000_presence")) (chars "NCIT:C16000_presence")
    (by decide) (by decide)

/-- The content hash of `doc0` under the concrete digest stand-in. -/
def raceHash : List Char := (_generate_hash sha0 clean0 doc0).1

/-- The core values string of `doc0`. -/
def raceCV : List Char := (_generate_hash sha0 clean0 doc0).2

/-- Ledger state after the first racing caller's insert. -/
def raceDB1 : DB := [⟨raceHash, chars "AA0001", raceCV⟩]

/-- Ledger state after the second racing caller's insert. -/
def raceDB2 : DB :=
  [⟨raceHash, chars "AA0001", raceCV⟩, ⟨raceHash, chars "AA0002", raceCV⟩]

/-- C7 (evaluation of the divergence): the allocator's existence check and its
insert are separate steps, so in the interleaving where two callers for the
same content both run `_check_collision` against the empty ledger before
either runs `_assign_ordinal`, both inserts succeed: the final ledger holds
two entries with the same hash value and the callers obtain distinct
canonical ids. -/
theorem check_then_insert_race :
    _check_collision raceHash [] = false ∧
    _assign_ordinal raceHash raceCV (_check_collision raceHash []) [] =
      PyResult.ok (chars "AA0001", raceDB1) ∧
    _assign_ordinal raceHash raceCV (_check_collision raceHash []) raceDB1 =
      PyResult.ok (chars "AA0002", raceDB2) ∧
    (raceDB2.filter (fun e => e.hash_value == raceHash)).length = 2 ∧
    chars "AA0001" ≠ chars "AA0002" := by
  decide

/-- Helper: swapping two elements that sit on either side of a block is a
permutation. -/
theorem cons_middle_swap {α : Type} (u v : α) (X Y : List α) :
    (u :: (X ++ v :: Y)).Perm (v :: (X ++ u :: Y)) := by
  induction X with
  | nil => exact List.Perm.swap v u Y
  | cons c X ih => exact (List.Perm.swap c u _).trans ((ih.cons c).trans (List.Perm.swap v c _))

/-- C10: swapping the `assessed_biomarker_entity_id` values between two
components of a document leaves the output of `_generate_hash` unchanged:
descriptor tokens and entity ids land in one flat list that is sorted, so
the pairing of descriptor and entity id does not influence the hash. -/
theorem entity_id_swap_same_hash (sha clean : List Char → List Char)
    (A B C : List Component) (b1 e1 b2 e2 : List Char) :
    _generate_hash sha clean ⟨A ++ ⟨b1, e1⟩ :: B ++ ⟨b2, e2⟩ :: C⟩ =
    _generate_hash sha clean ⟨A ++ ⟨b1, e2⟩ :: B ++ ⟨b2, e1⟩ :: C⟩ := by
  have hperm :
      ((A ++ ⟨b1, e1⟩ :: B ++ ⟨b2, e2⟩ :: C : List Component).flatMap
        (fun component =>
          [_extract_change component.biomarker,
           component.assessed_biomarker_entity_id])).Perm
      ((A ++ ⟨b1, e2⟩ :: B ++ ⟨b2, e1⟩ :: C : List Component).flatMap
        (fun component =>
          [_extract_change component.biomarker,
           component.assessed_biomarker_entity_id])) := by
    simp only [List.flatMap_append, List.flatMap_cons, List.append_assoc,
      List.cons_append, List.nil_append]
    refine List.Perm.append_left _ ?_
    refine List.Perm.cons _ ?_
    simpa [List.append_assoc, List.singleton_append] using
      cons_middle_swap e1 e2
        ((B.flatMap (fun component =>
          [_extract_change component.biomarker,
           component.assessed_biomarker_entity_id])) ++ [_extract_change b2])
        (C.flatMap (fun component =>
          [_extract_change component.biomarker,
           component.assessed_biomarker_entity_id]))
  simp only [_generate_hash]
  rw [pySort_eq_of_perm (hperm.map clean)]

/-- Decimal digit characters of `n`, most significant first — the character
sequence Python's `str(n)` produces for a natural number. -/
def digitsList (n : Nat) : List Char :=
  if _h : n < 10 then [Nat.digitChar n]
  else digitsList (n / 10) ++ [Nat.digitChar (n % 10)]
decreasing_by exact Nat.div_lt_self (by omega) (by omega)

/-- Unfolding lemma for `digitsList` below 10. -/
theorem digitsList_lt10 {n : Nat} (h : n < 10) : digitsList n = [Nat.digitChar n] := by
  rw [digitsList]
  simp [h]

/-- Unfolding lemma for `digitsList` at 10 and above. -/
theorem digitsList_ge10 {n : Nat} (h : ¬ n < 10) :
    digitsList n = digitsList (n / 10) ++ [Nat.digitChar (n % 10)] := by
  rw [digitsList]
  simp [h]

/-- `Nat.toDigitsCore` with enough fuel appends the digits of `n` to its
accumulator. -/
theorem toDigitsCore_eq (n : Nat) : ∀ (fuel : Nat) (ds : List Char), n < fuel →
    Nat.toDigitsCore 10 fuel n ds = digitsList n ++ ds := by
  induction n using Nat.strong_induction_on with
  | _ n ih =>
    intro fuel ds hfuel
    match fuel with
    | f + 1 =>
      rw [Nat.toDigitsCore]
      by_cases h0 : n / 10 = 0
      · have hn : n < 10 := by omega
        rw [digitsList_lt10 hn]
        simp [h0, Nat.mod_eq_of_lt hn]
      · have hn : ¬ n < 10 := by omega
        rw [digitsList_ge10 hn]
        have hrec := ih (n / 10) (Nat.div_lt_self (by omega) (by omega)) f
          (Nat.digitChar (n % 10) :: ds) (by omega)
        simp [h0, hrec, List.append_assoc]

/-- `Nat.toDigits 10` agrees with `digitsList`. -/
theorem toDigits_eq_digitsList (n : Nat) : Nat.toDigits 10 n = digitsList n := by
  have h := toDigitsCore_eq n (n + 1) [] (by omega)
  simpa [Nat.toDigits] using h

/-- The 4-digit zero-padded decimal form of a number below 10000. -/
def pad4 (n : Nat) : List Char :=
  [Nat.digitChar (n / 1000 % 10), Nat.digitChar (n / 100 % 10),
   Nat.digitChar (n / 10 % 10), Nat.digitChar (n % 10)]

/-- For `n < 10000`, Python's `str(n).zfill(4)` is the 4-digit zero-padded
decimal form of `n`. -/
theorem zfill_toDigits_eq_pad4 {n : Nat} (h : n < 10000) :
    zfill 4 (Nat.toDigits 10 n) = pad4 n := by
  have d0 : Nat.digitChar 0 = '0' := rfl
  rw [toDigits_eq_digitsList]
  by_cases h1 : n < 10
  · have e3 : n / 1000 % 10 = 0 := by omega
    have e2 : n / 100 % 10 = 0 := by omega
    have e1 : n / 10 % 10 = 0 := by omega
    have e0 : n % 10 = n := by omega
    rw [digitsList_lt10 h1]
    simp [zfill, pad4, e3, e2, e1, e0, d0, List.replicate]
  by_cases h2 : n < 100
  · have e3 : n / 1000 % 10 = 0 := by omega
    have e2 : n / 100 % 10 = 0 := by omega
    have e1 : n / 10 % 10 = n / 10 := by omega
    rw [digitsList_ge10 h1, digitsList_lt10 (show n / 10 < 10 by omega)]
    simp [zfill, pad4, e3, e2, e1, d0, List.replicate]
  by_cases h3 : n < 1000
  · have e3 : n / 1000 % 10 = 0 := by omega
    have e2 : n / 100 % 10 = n / 100 := by omega
    have ed : n / 10 / 10 = n / 100 := by
      rw [Nat.div_div_eq_div_mul]
    rw [digitsList_ge10 h1, digitsList_ge10 (show ¬ n / 10 < 10 by omega), ed,
      digitsList_lt10 (show n / 100 < 10 by omega)]
    simp [zfill, pad4, e3, e2, d0, List.replicate]
  · have e3 : n / 1000 % 10 = n / 1000 := by omega
    have ed1 : n / 10 / 10 = n / 100 := by rw [Nat.div_div_eq_div_mul]
    have ed2 : n / 100 / 10 = n / 1000 := by rw [Nat.div_div_eq_div_mul]
    rw [digitsList_ge10 h1, digitsList_ge10 (show ¬ n / 10 < 10 by omega), ed1,
      digitsList_ge10 (show ¬ n / 100 < 10 by omega), ed2,
      digitsList_lt10 (show n / 1000 < 10 by omega)]
    simp [zfill, pad4, e3, List.replicate]

/-- Every digit value below 10 renders as a digit character. -/
theorem digitChar_digit : ∀ v < 10, (Nat.digitChar v).isDigit = true := by decide

/-- `Nat.digitChar` is strictly monotone on digit values. -/
theorem digitChar_lt_digitChar :
    ∀ a < 10, ∀ b < 10, a < b → Nat.digitChar a < Nat.digitChar b := by decide

/-- The code-point bounds of a digit character. -/
theorem isDigit_bounds {c : Char} (h : c.isDigit = true) :
    48 ≤ c.toNat ∧ c.toNat ≤ 57 := by
  simp only [Char.isDigit, Bool.and_eq_true, decide_eq_true_eq, ge_iff_le] at h
  obtain ⟨h1, h2⟩ := h
  rw [UInt32.le_def, BitVec.le_def] at h1 h2
  exact ⟨h1, h2⟩

/-- The code-point bounds of an uppercase letter. -/
theorem isUpper_bounds {c : Char} (h : c.isUpper = true) :
    65 ≤ c.toNat ∧ c.toNat ≤ 90 := by
  simp only [Char.isUpper, Bool.and_eq_true, decide_eq_true_eq, ge_iff_le] at h
  obtain ⟨h1, h2⟩ := h
  rw [UInt32.le_def, BitVec.le_def] at h1 h2
  exact ⟨h1, h2⟩

/-- A digit character is recovered from its digit value. -/
theorem digitChar_roundtrip {c : Char} (h : c.isDigit = true) :
    Nat.digitChar (c.toNat - 48) = c := by
  obtain ⟨h1, h2⟩ := isDigit_bounds h
  obtain ⟨n, hn1, hn2, rfl⟩ : ∃ n, 48 ≤ n ∧ n ≤ 57 ∧ c = Char.ofNat n :=
    ⟨c.toNat, h1, h2, (Char.ofNat_toNat c).symm⟩
  interval_cases n <;> decide

/-- Zero-padded forms are ordered lexicographically exactly as their values. -/
theorem pad4_lex_lt {n m : Nat} (hn : n < 10000) (hm : m < 10000) (h : n < m) :
    List.Lex (· < ·) (pad4 n) (pad4 m) := by
  unfold pad4
  rcases Nat.lt_trichotomy (n / 1000 % 10) (m / 1000 % 10) with h1 | h1 | h1
  · exact List.Lex.rel (digitChar_lt_digitChar _ (by omega) _ (by omega) h1)
  · rw [h1]
    apply List.Lex.cons
    rcases Nat.lt_trichotomy (n / 100 % 10) (m / 100 % 10) with h2 | h2 | h2
    · exact List.Lex.rel (digitChar_lt_digitChar _ (by omega) _ (by omega) h2)
    · rw [h2]
      apply List.Lex.cons
      rcases Nat.lt_trichotomy (n / 10 % 10) (m / 10 % 10) with h3 | h3 | h3
      · exact List.Lex.rel (digitChar_lt_digitChar _ (by omega) _ (by omega) h3)
      · rw [h3]
        apply List.Lex.cons
        rcases Nat.lt_trichotomy (n % 10) (m % 10) with h4 | h4 | h4
        · exact List.Lex.rel (digitChar_lt_digitChar _ (by omega) _ (by omega) h4)
        · exfalso; omega
        · exfalso; omega
      · exfalso; omega
    · exfalso; omega
  · exfalso; omega

/-- Advancing a letter below `Z` yields an uppercase letter. -/
theorem ofNat_succ_isUpper :
    ∀ m < 90, 65 ≤ m → (Char.ofNat ((Char.ofNat m).toNat + 1)).isUpper = true := by
  decide

/-- Advancing a letter below `Z` yields a strictly greater character. -/
theorem ofNat_succ_lt :
    ∀ m < 90, 65 ≤ m → Char.ofNat m < Char.ofNat ((Char.ofNat m).toNat + 1) := by
  decide

/-- C6: on every id matching `[A-Z]{2}[0-9]{4}` other than `ZZ9999`, the
increment operation succeeds, and its result again matches
`[A-Z]{2}[0-9]{4}` and is strictly greater in lexicographic order — so a
fresh allocation always issues an id strictly above the ledger maximum it
read. -/
theorem increment_strictly_increases (l : List Char)
    (hid : isOrdinalId l = true) (hne : l ≠ chars "ZZ9999") :
    ∃ r, _increment_ordinal_id l = Except.ok r ∧ isOrdinalId r = true ∧
      List.Lex (· < ·) l r := by
  obtain ⟨a, b, d1, d2, d3, d4, rfl⟩ :
      ∃ a b d1 d2 d3 d4, l = [a, b, d1, d2, d3, d4] := by
    match l, hid with
    | [a, b, d1, d2, d3, d4], _ => exact ⟨a, b, d1, d2, d3, d4, rfl⟩
    | [], hid => exact Bool.noConfusion hid
    | [_], hid => exact Bool.noConfusion hid
    | [_, _], hid => exact Bool.noConfusion hid
    | [_, _, _], hid => exact Bool.noConfusion hid
    | [_, _, _, _], hid => exact Bool.noConfusion hid
    | [_, _, _, _, _], hid => exact Bool.noConfusion hid
    | _ :: _ :: _ :: _ :: _ :: _ :: _ :: _, hid => exact Bool.noConfusion hid
  simp only [isOrdinalId, Bool.and_eq_true] at hid
  obtain ⟨⟨⟨⟨⟨ha, hb⟩, h1⟩, h2⟩, h3⟩, h4⟩ := hid
  obtain ⟨hb1a, hb1b⟩ := isDigit_bounds h1
  obtain ⟨hb2a, hb2b⟩ := isDigit_bounds h2
  obtain ⟨hb3a, hb3b⟩ := isDigit_bounds h3
  obtain ⟨hb4a, hb4b⟩ := isDigit_bounds h4
  have hparse : parseIntDigits [d1, d2, d3, d4] =
      (d1.toNat - 48) * 1000 + (d2.toNat - 48) * 100 + (d3.toNat - 48) * 10 +
        (d4.toNat - 48) := by
    simp [parseIntDigits]
    omega
  have hTD : ([a, b, d1, d2, d3, d4] : List Char).take 2 = [a, b] := rfl
  have hDR : ([a, b, d1, d2, d3, d4] : List Char).drop 2 = [d1, d2, d3, d4] := rfl
  by_cases hlt : parseIntDigits [d1, d2, d3, d4] < 9999
  · refine ⟨[a, b] ++ pad4 (parseIntDigits [d1, d2, d3, d4] + 1), ?_, ?_, ?_⟩
    · simp only [_increment_ordinal_id, hTD, hDR, if_pos hlt]
      rw [zfill_toDigits_eq_pad4 (by omega)]
    · have p1 := digitChar_digit ((parseIntDigits [d1, d2, d3, d4] + 1) / 1000 % 10) (by omega)
      have p2 := digitChar_digit ((parseIntDigits [d1, d2, d3, d4] + 1) / 100 % 10) (by omega)
      have p3 := digitChar_digit ((parseIntDigits [d1, d2, d3, d4] + 1) / 10 % 10) (by omega)
      have p4 := digitChar_digit ((parseIntDigits [d1, d2, d3, d4] + 1) % 10) (by omega)
      simp [isOrdinalId, pad4, ha, hb, p1, p2, p3, p4]
    · have hre : pad4 (parseIntDigits [d1, d2, d3, d4]) = [d1, d2, d3, d4] := by
        have q1 : parseIntDigits [d1, d2, d3, d4] / 1000 % 10 = d1.toNat - 48 := by omega
        have q2 : parseIntDigits [d1, d2, d3, d4] / 100 % 10 = d2.toNat - 48 := by omega
        have q3 : parseIntDigits [d1, d2, d3, d4] / 10 % 10 = d3.toNat - 48 := by omega
        have q4 : parseIntDigits [d1, d2, d3, d4] % 10 = d4.toNat - 48 := by omega
        rw [pad4, q1, q2, q3, q4, digitChar_roundtrip h1, digitChar_roundtrip h2,
          digitChar_roundtrip h3, digitChar_roundtrip h4]
      have hlex := pad4_lex_lt
        (show parseIntDigits [d1, d2, d3, d4] < 10000 by omega)
        (show parseIntDigits [d1, d2, d3, d4] + 1 < 10000 by omega)
        (show parseIntDigits [d1, d2, d3, d4] < parseIntDigits [d1, d2, d3, d4] + 1 by omega)
      rw [hre] at hlex
      exact List.Lex.cons (List.Lex.cons hlex)
  · have h9999 : parseIntDigits [d1, d2, d3, d4] = 9999 := by omega
    have hd1 : d1 = '9' := by
      have h9 : d1.toNat - 48 = 9 := by omega
      have hr := digitChar_roundtrip h1
      rw [h9] at hr
      rw [← hr]
      decide
    have hd2 : d2 = '9' := by
      have h9 : d2.toNat - 48 = 9 := by omega
      have hr := digitChar_roundtrip h2
      rw [h9] at hr
      rw [← hr]
      decide
    have hd3 : d3 = '9' := by
      have h9 : d3.toNat - 48 = 9 := by omega
      have hr := digitChar_roundtrip h3
      rw [h9] at hr
      rw [← hr]
      decide
    have hd4 : d4 = '9' := by
      have h9 : d4.toNat - 48 = 9 := by omega
      have hr := digitChar_roundtrip h4
      rw [h9] at hr
      rw [← hr]
      decide
    subst hd1 hd2 hd3 hd4
    have hAB : ¬ ([a, b] = chars "ZZ") := by
      intro hh
      apply hne
      have hZZ : chars "ZZ" = ['Z', 'Z'] := rfl
      rw [hZZ] at hh
      obtain ⟨rfl, rfl⟩ : a = 'Z' ∧ b = 'Z' := by simpa using hh
      rfl
    by_cases hbZ : b = 'Z'
    · subst hbZ
      have haZ : a ≠ 'Z' := by
        intro hh
        refine hAB ?_
        rw [hh]
        rfl
      obtain ⟨hu1, hu2⟩ := isUpper_bounds ha
      have h90 : a.toNat ≠ 90 := by
        intro hh
        apply haZ
        have hofn := Char.ofNat_toNat a
        rw [hh] at hofn
        rw [← hofn]
      obtain ⟨n, hn1, hn2, rfl⟩ : ∃ n, 65 ≤ n ∧ n ≤ 89 ∧ a = Char.ofNat n :=
        ⟨a.toNat, by omega, by omega, (Char.ofNat_toNat a).symm⟩
      interval_cases n <;> exact ⟨_, rfl, by decide, by decide⟩
    · obtain ⟨hu1, hu2⟩ := isUpper_bounds hb
      have h90 : b.toNat ≠ 90 := by
        intro hh
        apply hbZ
        have hofn := Char.ofNat_toNat b
        rw [hh] at hofn
        rw [← hofn]
      obtain ⟨n, hn1, hn2, rfl⟩ : ∃ n, 65 ≤ n ∧ n ≤ 89 ∧ b = Char.ofNat n :=
        ⟨b.toNat, by omega, by omega, (Char.ofNat_toNat b).symm⟩
      refine ⟨[a, Char.ofNat ((Char.ofNat n).toNat + 1)] ++ chars "0000", ?_, ?_, ?_⟩
      · have hTD2 : ([a, Char.ofNat n, '9', '9', '9', '9'] : List Char).take 2 =
            [a, Char.ofNat n] := rfl
        have hDR2 : ([a, Char.ofNat n, '9', '9', '9', '9'] : List Char).drop 2 =
            ['9', '9', '9', '9'] := rfl
        have g0 : ([a, Char.ofNat n] : List Char).getD 0 'A' = a := rfl
        have g1 : ([a, Char.ofNat n] : List Char).getD 1 'A' = Char.ofNat n := rfl
        simp only [_increment_ordinal_id, hTD2, hDR2, g0, g1]
        rw [if_neg (by decide : ¬ parseIntDigits ['9', '9', '9', '9'] < 9999),
          if_neg hAB, if_neg hbZ]
      · have hzeros : ([a, Char.ofNat ((Char.ofNat n).toNat + 1)] ++ chars "0000" : List Char) =
            [a, Char.ofNat ((Char.ofNat n).toNat + 1), '0', '0', '0', '0'] := rfl
        rw [hzeros]
        simp [isOrdinalId, ha, ofNat_succ_isUpper n (by omega) (by omega),
          (by decide : ('0' : Char).isDigit = true)]
      · exact List.Lex.cons (List.Lex.rel (ofNat_succ_lt n (by omega) (by omega)))

/-- Witness for C6 at the concrete id `AA0000`. -/
theorem increment_strictly_increases_witness :
    isOrdinalId (chars "AA0000") = true ∧ chars "AA0000" ≠ chars "ZZ9999" ∧
    (∃ r, _increment_ordinal_id (chars "AA0000") = Except.ok r ∧
      isOrdinalId r = true ∧ List.Lex (· < ·) (chars "AA0000") r) :=
  ⟨by decide, by decide,
    increment_strictly_increases (chars "AA0000") (by decide) (by decide)⟩
